import Mathlib

/-!
Verification of the Unitree G1 ZED camera streaming scripts.

This file gives a shallow embedding of the two scripts of the repository,
`scripts/stream_zed.py` (the producer: `ZEDStreamer`) and
`scripts/view_zed_cam.py` (the consumer: `CameraViewer`), and proves the
specified properties about them.  Timestamps and pixel data are modelled
over `ℚ` and `ℕ`; the fallible operations (camera grab, socket receive)
return `Option`, and startup failure is an `Except.error`.
-/

namespace ZedG1

/-- One RGB pixel, as the triple of its channel values. -/
abbrev Pixel := ℕ × ℕ × ℕ

/-- One BGRA pixel as delivered by the ZED SDK (`sl.VIEW.LEFT` image data). -/
abbrev Bgra := ℕ × ℕ × ℕ × ℕ

/-- A 2-D image, row major. -/
abbrev Image := List (List Pixel)

/-- A per-pixel depth buffer, row major (`float` values, modelled in `ℚ`). -/
abbrev DepthMap := List (List ℚ)

/-- Height of an image: number of rows. -/
def imageHeight (img : List (List α)) : ℕ := img.length

/-- Width of an image: length of the first row (`0` for an empty image). -/
def imageWidth (img : List (List α)) : ℕ := (img.headD []).length

/-- An ndarray as serialized by `msgpack_numpy`: recorded shape plus the
row-major flattened data. -/
structure Packed (α : Type) where
  h : ℕ
  w : ℕ
  data : List α
  deriving DecidableEq, Repr

/-- Serialization of a row-major 2-D buffer, as done by `m.encode` inside
`msgpack.packb(message, default=m.encode)` (stream_zed.py line 182): the
shape is recorded next to the flattened data. -/
def packRows (rows : List (List α)) : Packed α :=
  ⟨rows.length, (rows.headD []).length, rows.flatten⟩

/-- Rebuild `h` rows of width `w` from flattened data. -/
def unflatten (h w : ℕ) (data : List α) : List (List α) :=
  match h with
  | 0 => []
  | h1 + 1 => data.take w :: unflatten h1 w (data.drop w)

/-- Deserialization of a packed 2-D buffer from its recorded shape. -/
def unpackRows (p : Packed α) : List (List α) := unflatten p.h p.w p.data

/-- The frame dictionary produced by `ZEDStreamer.grab_frame`, at the level
of its contents: image, capture timestamp, optional depth buffer. -/
structure Frame where
  image : Image
  timestamp : ℚ
  depth : Option DepthMap
  deriving DecidableEq, Repr

/-- The message written to the ZMQ PUB socket by `ZEDStreamer.publish_frame`
(stream_zed.py lines 175-182): the capture timestamp, the msgpack-serialized
image, and, exactly when the frame carried one, the serialized depth buffer. -/
structure EncodedMessage where
  timestamp : ℚ
  image : Packed Pixel
  depth : Option (Packed ℚ)
  deriving DecidableEq, Repr

/-- Encoding side of the codec: what `publish_frame` packs for a frame. -/
def encodeFrame (f : Frame) : EncodedMessage :=
  { timestamp := f.timestamp
    image := packRows f.image
    depth := f.depth.map packRows }

/-- Modelled from the spec: the consumer half of the msgpack / msgpack_numpy
codec for the wire format of `stream_zed.py` is not part of this repository
(the bundled viewer decodes the integrated camera service's base64-JPEG
format, a different schema).  Per the spec, decoding an EncodedMessage must
reproduce a Frame with identical spatial dimensions and a timestamp equal to
`capturedAt`; `msgpack_numpy` rebuilds each array from its recorded shape and
raw data, which is what this definition does. -/
def decodeFrame (msg : EncodedMessage) : Frame :=
  { image := unpackRows msg.image
    timestamp := msg.timestamp
    depth := msg.depth.map unpackRows }

/-! ## Consumer side: `view_zed_cam.py` (`CameraViewer`) -/

/-- Capacity of the FPS history deque (`deque(maxlen=30)`, line 48). -/
def FPS_WINDOW : ℕ := 30

/-- Append to a bounded deque: `deque(maxlen=n).append(x)` keeps the newest
`n` entries, silently evicting from the left. -/
def dequePush (maxlen : ℕ) (h : List ℚ) (x : ℚ) : List ℚ :=
  let h1 := h ++ [x]
  if maxlen < h1.length then h1.drop (h1.length - maxlen) else h1

/-- Outcome of one underlying `self.socket.recv()` call: either a packed
message arrives, or the receive times out (`zmq.Again`). -/
inductive RecvOutcome where
  | msg (packed : EncodedMessage)
  | again
  deriving DecidableEq

/-- State of a `CameraViewer` relevant to receiving and FPS tracking:
`fps_history` and `last_frame_time` (lines 47-49), plus a count of
underlying `socket.recv()` attempts made so far (so that the number of
transport operations a call performs is observable in the model). -/
structure Viewer where
  fps_history : List ℚ
  last_frame_time : ℚ
  recvCount : ℕ
  deriving DecidableEq

/-- A fresh `CameraViewer` constructed at time `t0`: empty FPS history,
`last_frame_time = time.time()` (line 49), no receive attempted yet. -/
def initViewer (t0 : ℚ) : Viewer :=
  { fps_history := [], last_frame_time := t0, recvCount := 0 }

/-- The FPS-update block inside `receive_frame` (lines 68-71): append the
inter-arrival duration and remember the arrival time. -/
def recordArrival (st : Viewer) (now : ℚ) : Viewer :=
  { st with
    fps_history := dequePush FPS_WINDOW st.fps_history (now - st.last_frame_time)
    last_frame_time := now }

/-- `CameraViewer.receive_frame` (lines 62-76).  The socket is modelled as
the stream of outcomes its successive `recv()` calls would produce; the call
performs exactly one `recv()` (consuming outcome number `recvCount`). On
`zmq.Again` it returns `none` (printing a warning); on a message it updates
the FPS history and returns the unpacked data. -/
def receive_frame (socket : ℕ → RecvOutcome) (st : Viewer) (now : ℚ) :
    Viewer × Option EncodedMessage :=
  match socket st.recvCount with
  | RecvOutcome.again => ({ st with recvCount := st.recvCount + 1 }, none)
  | RecvOutcome.msg m =>
      ({ recordArrival st now with recvCount := st.recvCount + 1 }, some m)

/-- `CameraViewer.get_fps` (lines 78-82): `0` with fewer than two recorded
inter-arrival samples, else the reciprocal of their mean. -/
def get_fps (st : Viewer) : ℚ :=
  if st.fps_history.length < 2 then 0
  else 1 / (st.fps_history.sum / st.fps_history.length)

/-- Fold a sequence of frame arrivals into the viewer state. -/
def arriveAll (st : Viewer) (times : List ℚ) : Viewer :=
  times.foldl recordArrival st

/-- Arrival times spaced by a constant interval `D` starting after `t0`:
`t0 + D, t0 + 2D, ...` (`n` arrivals). -/
def constTimes (t0 D : ℚ) : ℕ → List ℚ
  | 0 => []
  | n + 1 => (t0 + D) :: constTimes (t0 + D) D n

/-- The on-screen latency computation of the viewer loop (line 136):
`(time.time() - timestamps[camera_name]) * 1000`. -/
def latency_ms (capturedAt now : ℚ) : ℚ := (now - capturedAt) * 1000

/-! ## Producer side: `stream_zed.py` (`ZEDStreamer`) -/

/-- ZED SDK error codes: success or any failing code. -/
inductive ERROR_CODE where
  | SUCCESS
  | FAILURE (code : String)
  deriving DecidableEq

/-- ZED resolution classes used by the script. -/
inductive RESOLUTION where
  | HD2K
  | HD1080
  | HD720
  | VGA
  deriving DecidableEq, Repr

/-- Python's `str.lower()` on the ASCII resolution strings: lowercase every
character. -/
def pyLower (s : String) : String := String.mk (s.data.map Char.toLower)

/-- The lookup table of `_parse_resolution` (lines 113-118). -/
def resolutions : List (String × RESOLUTION) :=
  [("2k", RESOLUTION.HD2K), ("1080p", RESOLUTION.HD1080),
   ("720p", RESOLUTION.HD720), ("vga", RESOLUTION.VGA)]

/-- `ZEDStreamer._parse_resolution` (lines 111-119):
`resolutions.get(resolution.lower(), sl.RESOLUTION.HD720)`. -/
def _parse_resolution (resolution : String) : RESOLUTION :=
  (resolutions.lookup (pyLower resolution)).getD RESOLUTION.HD720

/-- A value stored in the frame dictionary returned by `grab_frame`. -/
inductive Val where
  | image (img : Image)
  | timestamp (t : ℚ)
  | depth (d : DepthMap)
  deriving DecidableEq

/-- The frame dictionary `grab_frame` builds, with its string keys. -/
abbrev FrameDict := List (String × Val)

/-- State of a `ZEDStreamer`.  Handle fields (`depth_map`, `zmq_socket`,
`zmq_context`, `video_writer`) record whether the corresponding Python
attribute is set (truthy); `sent` records the messages written to the
transport; the release counters record how many times each underlying
release call (`video_writer.release()`, `zmq_socket.close()`,
`zmq_context.term()`, `zed.close()`) has been invoked. -/
structure ZEDStreamer where
  fps : ℕ
  enable_depth : Bool
  running : Bool
  depth_map : Option Unit
  zmq_socket : Bool
  zmq_context : Bool
  video_writer : Bool
  sent : List EncodedMessage
  writerReleases : ℕ
  socketCloses : ℕ
  contextTerms : ℕ
  zedCloses : ℕ
  deriving DecidableEq

/-- The state a successfully constructed `ZEDStreamer` starts in: the depth
container exists exactly when depth is enabled (line 98), no transport is
bound yet (lines 104-106), no video writer (line 109), nothing released. -/
def initRecord (fps : ℕ) (enable_depth : Bool) : ZEDStreamer :=
  { fps := fps
    enable_depth := enable_depth
    running := false
    depth_map := if enable_depth then some () else none
    zmq_socket := false
    zmq_context := false
    video_writer := false
    sent := []
    writerReleases := 0
    socketCloses := 0
    contextTerms := 0
    zedCloses := 0 }

/-- `ZEDStreamer.__init__` (lines 48-109): opening the camera with status
`openStatus`; a non-success status raises `RuntimeError` (lines 82-84),
aborting construction before any streaming state exists. -/
def initStreamer (fps : ℕ) (enable_depth : Bool) (openStatus : ERROR_CODE) :
    Except String ZEDStreamer :=
  if openStatus ≠ ERROR_CODE.SUCCESS then
    Except.error "Failed to open ZED camera"
  else
    Except.ok (initRecord fps enable_depth)

/-- `ZEDStreamer.start_zmq_server` (lines 121-131): when the zmq module is
available, create a context and bind a PUB socket; otherwise return without
binding anything. -/
def start_zmq_server (st : ZEDStreamer) (zmqAvailable : Bool) : ZEDStreamer :=
  if zmqAvailable then { st with zmq_context := true, zmq_socket := true }
  else st

/-- `ZEDStreamer.start_video_writer` (lines 133-139). -/
def start_video_writer (st : ZEDStreamer) : ZEDStreamer :=
  { st with video_writer := true }

/-- The BGRA-to-RGB conversion on line 156:
`image_data[:, :, :3][:, :, ::-1]` keeps the first three channels of each
pixel and reverses them. -/
def convertImage (raw : List (List Bgra)) : Image :=
  raw.map (List.map (fun px => (px.2.2.1, px.2.1, px.1)))

/-- `ZEDStreamer.grab_frame` (lines 141-168).  A failing `zed.grab` returns
`None` (lines 147-149).  Otherwise the result dictionary holds the converted
RGB image and `time.time()`, and additionally the depth buffer when
`self.enable_depth and self.depth_map is not None` (line 164). -/
def grab_frame (st : ZEDStreamer) (grabStatus : ERROR_CODE)
    (raw : List (List Bgra)) (now : ℚ) (depthData : DepthMap) :
    Option FrameDict :=
  if grabStatus ≠ ERROR_CODE.SUCCESS then none
  else
    some ([("image", Val.image (convertImage raw)), ("timestamp", Val.timestamp now)]
      ++ (if st.enable_depth && st.depth_map.isSome
          then [("depth", Val.depth depthData)] else []))

/-- Read `frame["timestamp"]` (present in every dictionary `grab_frame`
produces). -/
def dictTimestamp (frame : FrameDict) : ℚ :=
  match frame.lookup "timestamp" with
  | some (Val.timestamp t) => t
  | _ => 0

/-- Read `frame["image"]`. -/
def dictImage (frame : FrameDict) : Image :=
  match frame.lookup "image" with
  | some (Val.image img) => img
  | _ => []

/-- Read `frame["depth"]`, defaulting to an empty buffer. -/
def dictDepth (frame : FrameDict) : DepthMap :=
  match frame.lookup "depth" with
  | some (Val.depth d) => d
  | _ => []

/-- `ZEDStreamer.publish_frame` (lines 170-183).  With no socket bound the
call returns immediately (lines 172-173).  Otherwise it builds the message
from `frame["timestamp"]` and `frame["image"]`, adds `frame["depth"]`
exactly when the key is present (lines 179-180), packs it and sends it —
one `send` per call (line 183). -/
def publish_frame (st : ZEDStreamer) (frame : FrameDict) : ZEDStreamer :=
  if st.zmq_socket = false then st
  else
    let message : EncodedMessage :=
      { timestamp := dictTimestamp frame
        image := packRows (dictImage frame)
        depth := if (frame.lookup "depth").isSome
                 then some (packRows (dictDepth frame)) else none }
    { st with sent := st.sent ++ [message] }

/-- The per-iteration inputs of the streaming loop: the grab status and, on
success, the raw image, the wall-clock time and the depth measure. -/
structure IterInput where
  grabStatus : ERROR_CODE
  raw : List (List Bgra)
  now : ℚ
  depthData : DepthMap

/-- One iteration of `ZEDStreamer.run` (lines 200-238): grab a frame; on
`None` skip the iteration (lines 207-208), otherwise publish it over ZMQ if
a socket is bound (lines 213-214). -/
def runStep (st : ZEDStreamer) (inp : IterInput) : ZEDStreamer :=
  match grab_frame st inp.grabStatus inp.raw inp.now inp.depthData with
  | none => st
  | some frame => if st.zmq_socket then publish_frame st frame else st

/-- The streaming loop over a finite schedule of iteration inputs. -/
def runLoop (inps : List IterInput) (st : ZEDStreamer) : ZEDStreamer :=
  inps.foldl runStep st

/-- `ZEDStreamer.close` (lines 252-265): release the video writer if set,
close the socket if set, terminate the context if set, and close the
camera — unconditionally.  None of the handle attributes is cleared. -/
def close (st : ZEDStreamer) : ZEDStreamer :=
  let s1 := if st.video_writer
            then { st with writerReleases := st.writerReleases + 1 } else st
  let s2 := if s1.zmq_socket
            then { s1 with socketCloses := s1.socketCloses + 1 } else s1
  let s3 := if s2.zmq_context
            then { s2 with contextTerms := s2.contextTerms + 1 } else s2
  { s3 with zedCloses := s3.zedCloses + 1 }

/-- `main` of stream_zed.py (lines 268-311): construct the streamer (a
failed open propagates the `RuntimeError` before the `try` block), start the
ZMQ server when `port > 0`, start the video writer when saving, run the
loop, and — in the `finally` block — call `close()` exactly once. -/
def mainFlow (port : ℕ) (save : Bool) (zmqAvailable : Bool)
    (openStatus : ERROR_CODE) (fps : ℕ) (enable_depth : Bool)
    (inps : List IterInput) : Except String ZEDStreamer :=
  match initStreamer fps enable_depth openStatus with
  | Except.error e => Except.error e
  | Except.ok st0 =>
      let st1 := if 0 < port then start_zmq_server st0 zmqAvailable else st0
      let st2 := if save then start_video_writer st1 else st1
      let st3 := runLoop inps st2
      Except.ok (close st3)

/-! ## The conflate-to-latest channel -/

/-- An event on the publish/subscribe channel: the producer publishes a
message, or the consumer performs one receive. -/
inductive PubSubEvent where
  | pub (m : EncodedMessage)
  | recv
  deriving DecidableEq

/-- Modelled from the spec: the conflate-to-latest delivery discipline of
the transport is enforced by the ZMQ library (the repository only configures
it: `zmq.CONFLATE` with `RCVHWM 3` on the subscriber, view_zed_cam.py lines
43-44, against the PUB socket bound in `start_zmq_server`), so the channel
itself is not code under `src/`.  Per the spec, only the newest unconsumed
message is retained: a publish overwrites whatever is pending, and a receive
takes the pending message if any.  The state is (pending message, messages
observed by the consumer so far). -/
def conflateStep :
    Option EncodedMessage × List EncodedMessage → PubSubEvent →
    Option EncodedMessage × List EncodedMessage
  | (_, obs), PubSubEvent.pub m => (some m, obs)
  | (some m, obs), PubSubEvent.recv => (none, obs ++ [m])
  | (none, obs), PubSubEvent.recv => (none, obs)

/-- Run the channel over a sequence of events from the empty state. -/
def conflateRun (evs : List PubSubEvent) :
    Option EncodedMessage × List EncodedMessage :=
  evs.foldl conflateStep (none, [])

/-- The messages published along an event sequence, in order. -/
def pubsOf (evs : List PubSubEvent) : List EncodedMessage :=
  evs.filterMap (fun e => match e with
    | PubSubEvent.pub m => some m
    | PubSubEvent.recv => none)

/-! ## Concrete sample inputs used by the witness theorems -/

/-- A concrete 2-by-2 frame with depth enabled. -/
def testFrame : Frame :=
  { image := [[(1, 2, 3), (4, 5, 6)], [(7, 8, 9), (10, 11, 12)]]
    timestamp := 5 / 2
    depth := some [[1 / 2, 3 / 2], [2, 7 / 2]] }

/-- A concrete streamer with a bound ZMQ socket. -/
def samplePubOn : ZEDStreamer :=
  { fps := 30, enable_depth := false, running := true, depth_map := none
    zmq_socket := true, zmq_context := true, video_writer := false
    sent := [], writerReleases := 0, socketCloses := 0, contextTerms := 0
    zedCloses := 0 }

/-- The same streamer with no transport bound. -/
def samplePubOff : ZEDStreamer :=
  { samplePubOn with zmq_socket := false, zmq_context := false }

/-- A concrete frame dictionary without depth. -/
def sampleFrameDict : FrameDict :=
  [("image", Val.image [[(1, 2, 3)]]), ("timestamp", Val.timestamp 2)]

/-- A loop iteration whose grab fails. -/
def sampleFailInput : IterInput :=
  { grabStatus := ERROR_CODE.FAILURE "CAMERA_NOT_DETECTED"
    raw := [], now := 0, depthData := [] }

/-- A loop iteration whose grab succeeds. -/
def sampleOkInput : IterInput :=
  { grabStatus := ERROR_CODE.SUCCESS
    raw := [[(1, 2, 3, 4)]], now := 1, depthData := [] }

/-- The streamer produced by a successful depth-enabled construction. -/
def sampleDepthStreamer : ZEDStreamer :=
  { fps := 30, enable_depth := true, running := false, depth_map := some ()
    zmq_socket := false, zmq_context := false, video_writer := false
    sent := [], writerReleases := 0, socketCloses := 0, contextTerms := 0
    zedCloses := 0 }

/-- The frame dictionary grabbed from one BGRA pixel plus a depth value. -/
def sampleGrabDict : FrameDict :=
  [("image", Val.image [[(3, 2, 1)]]), ("timestamp", Val.timestamp 1),
   ("depth", Val.depth [[2]])]

/-- The streamer state `main` ends with on a minimal successful run with a
bound port and no video writer. -/
def sampleMainResult : ZEDStreamer :=
  { fps := 30, enable_depth := false, running := false, depth_map := none
    zmq_socket := true, zmq_context := true, video_writer := false
    sent := [], writerReleases := 0, socketCloses := 1, contextTerms := 1
    zedCloses := 1 }

/-- A first published message. -/
def msgA : EncodedMessage :=
  { timestamp := 1, image := ⟨1, 1, [(0, 0, 0)]⟩, depth := none }

/-- A later published message. -/
def msgB : EncodedMessage :=
  { timestamp := 2, image := ⟨1, 1, [(9, 9, 9)]⟩, depth := none }

end ZedG1

namespace ZedG1

/-! ## Helper lemmas -/

/-- Rebuilding rows from the flattened data recovers the original rows when
they all have the recorded width. -/
theorem unflatten_flatten {α : Type} (w : ℕ) (rows : List (List α))
    (h : ∀ r ∈ rows, r.length = w) :
    unflatten rows.length w rows.flatten = rows := by
  induction rows with
  | nil => rfl
  | cons r rest ih =>
      have hr : r.length = w := h r (by simp)
      have htail : ∀ s ∈ rest, s.length = w := fun s hs => h s (by simp [hs])
      simp only [List.flatten_cons, List.length_cons, unflatten]
      have h1 : List.take w (r ++ rest.flatten) = r := by
        rw [← hr]; exact List.take_left r rest.flatten
      have h2 : List.drop w (r ++ rest.flatten) = rest.flatten := by
        rw [← hr]; exact List.drop_left r rest.flatten
      rw [h1, h2, ih htail]

/-- Deserialization undoes serialization on rectangular buffers. -/
theorem unpackRows_packRows {α : Type} (rows : List (List α))
    (h : ∀ r ∈ rows, r.length = (rows.headD []).length) :
    unpackRows (packRows rows) = rows :=
  unflatten_flatten _ rows h

/-- A buffer whose rows all have width `w` also has every row as long as its
first row. -/
theorem rect_headD {α : Type} (rows : List (List α)) (w : ℕ)
    (h : ∀ r ∈ rows, r.length = w) :
    ∀ r ∈ rows, r.length = (rows.headD []).length := by
  intro r hr
  cases rows with
  | nil => cases hr
  | cons a rest =>
      have ha : a.length = w := h a (by simp)
      simp only [List.headD_cons]
      rw [h r hr, ha]

/-! ## Claim theorems -/

/-- C2: for every frame produced by the pipeline (a rectangular image, and a
rectangular depth buffer when depth is enabled), decoding the encoded message
yields an image with exactly the original spatial dimensions, a timestamp
equal to `capturedAt`, and a depth buffer identical entry-for-entry to the
original one. -/
theorem decode_encode_round_trip (f : Frame) (w dw : ℕ)
    (himg : ∀ r ∈ f.image, r.length = w)
    (hdep : ∀ d, f.depth = some d → ∀ r ∈ d, r.length = dw) :
    imageHeight (decodeFrame (encodeFrame f)).image = imageHeight f.image ∧
    imageWidth (decodeFrame (encodeFrame f)).image = imageWidth f.image ∧
    (decodeFrame (encodeFrame f)).timestamp = f.timestamp ∧
    (decodeFrame (encodeFrame f)).depth = f.depth := by
  have hi : (decodeFrame (encodeFrame f)).image = f.image :=
    unpackRows_packRows f.image (rect_headD f.image w himg)
  have hd : (decodeFrame (encodeFrame f)).depth = f.depth := by
    show (f.depth.map packRows).map unpackRows = f.depth
    cases hfd : f.depth with
    | none => rfl
    | some d =>
        simp only [Option.map_some']
        rw [unpackRows_packRows d (rect_headD d dw (hdep d hfd))]
  exact ⟨by rw [hi], by rw [hi], rfl, hd⟩

/-- Witness for C2 at a concrete 2-by-2 frame with depth enabled. -/
theorem decode_encode_round_trip_witness :
    (∀ r ∈ testFrame.image, r.length = 2) ∧
    imageHeight (decodeFrame (encodeFrame testFrame)).image =
      imageHeight testFrame.image ∧
    imageWidth (decodeFrame (encodeFrame testFrame)).image =
      imageWidth testFrame.image ∧
    (decodeFrame (encodeFrame testFrame)).timestamp = testFrame.timestamp ∧
    (decodeFrame (encodeFrame testFrame)).depth = testFrame.depth :=
  ⟨by decide,
   (decode_encode_round_trip testFrame 2 2 (by decide) (by decide)).1,
   (decode_encode_round_trip testFrame 2 2 (by decide) (by decide)).2.1,
   (decode_encode_round_trip testFrame 2 2 (by decide) (by decide)).2.2.1,
   (decode_encode_round_trip testFrame 2 2 (by decide) (by decide)).2.2.2⟩

/-- C7: the displayed latency `now - capturedAt` (in milliseconds) is
non-negative whenever `capturedAt ≤ now`, and with `capturedAt` fixed it
grows strictly with `now`. -/
theorem latency_nonneg_mono (capturedAt now now1 now2 : ℚ) :
    (capturedAt ≤ now → 0 ≤ latency_ms capturedAt now) ∧
    (now1 < now2 → latency_ms capturedAt now1 < latency_ms capturedAt now2) := by
  constructor
  · intro h
    have h0 : 0 ≤ now - capturedAt := sub_nonneg.mpr h
    simpa [latency_ms] using mul_nonneg h0 (by norm_num : (0 : ℚ) ≤ 1000)
  · intro h
    have h0 : now1 - capturedAt < now2 - capturedAt := by linarith
    simpa [latency_ms] using
      mul_lt_mul_of_pos_right h0 (by norm_num : (0 : ℚ) < 1000)

/-- Witness for C7 at concrete timestamps. -/
theorem latency_nonneg_mono_witness :
    ((1 : ℚ) ≤ 3 ∧ 0 ≤ latency_ms 1 3) ∧
    ((3 : ℚ) < 4 ∧ latency_ms 1 3 < latency_ms 1 4) :=
  ⟨⟨by norm_num, (latency_nonneg_mono 1 3 3 4).1 (by norm_num)⟩,
   ⟨by norm_num, (latency_nonneg_mono 1 3 3 4).2 (by norm_num)⟩⟩

/-- C10: `_parse_resolution` is a total function on strings; it maps the
four known resolution names case-insensitively to their enums and every
other string to HD720 as a silent default. -/
theorem parse_resolution_total (s : String) :
    (pyLower s = "vga" → _parse_resolution s = RESOLUTION.VGA) ∧
    (pyLower s = "720p" → _parse_resolution s = RESOLUTION.HD720) ∧
    (pyLower s = "1080p" → _parse_resolution s = RESOLUTION.HD1080) ∧
    (pyLower s = "2k" → _parse_resolution s = RESOLUTION.HD2K) ∧
    (pyLower s ≠ "vga" → pyLower s ≠ "720p" → pyLower s ≠ "1080p" →
      pyLower s ≠ "2k" → _parse_resolution s = RESOLUTION.HD720) := by
  refine ⟨fun h => ?_, fun h => ?_, fun h => ?_, fun h => ?_,
    fun h1 h2 h3 h4 => ?_⟩ <;>
    unfold _parse_resolution resolutions <;>
    simp only [List.lookup]
  · rw [h]; rfl
  · rw [h]; rfl
  · rw [h]; rfl
  · rw [h]; rfl
  · have e1 : (pyLower s == "2k") = false := by simp [h4]
    have e2 : (pyLower s == "1080p") = false := by simp [h3]
    have e3 : (pyLower s == "720p") = false := by simp [h2]
    have e4 : (pyLower s == "vga") = false := by simp [h1]
    simp [e1, e2, e3, e4]

/-- Pushing one more sample onto a bounded deque of equal samples. -/
theorem dequePush_replicate (k : ℕ) (D : ℚ) :
    dequePush FPS_WINDOW (List.replicate k D) D =
    List.replicate (min (k + 1) FPS_WINDOW) D := by
  simp only [dequePush, FPS_WINDOW, ← List.replicate_succ', List.length_replicate]
  by_cases h : 30 < k + 1
  · rw [if_pos h, List.drop_replicate]
    congr 1
    omega
  · rw [if_neg h]
    congr 1
    omega

/-- After `n` arrivals spaced by a constant interval `D`, a viewer whose
history already holds `k ≤ 30` samples equal to `D` holds
`min (k + n) 30` samples equal to `D`. -/
theorem arriveAll_const (D : ℚ) (c : ℕ) (n : ℕ) :
    ∀ (k : ℕ) (t0 : ℚ), k ≤ FPS_WINDOW →
    arriveAll ⟨List.replicate k D, t0, c⟩ (constTimes t0 D n) =
      ⟨List.replicate (min (k + n) FPS_WINDOW) D, t0 + n * D, c⟩ := by
  induction n with
  | zero =>
      intro k t0 hk
      simp [arriveAll, constTimes, Nat.min_eq_left hk]
  | succ n ih =>
      intro k t0 hk
      have harg : t0 + D - t0 = D := by ring
      have hstep : recordArrival ⟨List.replicate k D, t0, c⟩ (t0 + D) =
          ⟨List.replicate (min (k + 1) FPS_WINDOW) D, t0 + D, c⟩ := by
        simp [recordArrival, harg, dequePush_replicate]
      have hloop : arriveAll ⟨List.replicate k D, t0, c⟩ (constTimes t0 D (n + 1)) =
          arriveAll ⟨List.replicate (min (k + 1) FPS_WINDOW) D, t0 + D, c⟩
            (constTimes (t0 + D) D n) := by
        simp only [constTimes, arriveAll, List.foldl_cons]
        rw [hstep]
      rw [hloop, ih _ _ (min_le_right _ _)]
      have h1 : min (min (k + 1) FPS_WINDOW + n) FPS_WINDOW =
          min (k + (n + 1)) FPS_WINDOW := by
        simp only [FPS_WINDOW]
        omega
      have h2 : t0 + D + (n : ℚ) * D = t0 + ((n + 1 : ℕ) : ℚ) * D := by
        push_cast
        ring
      rw [h1, h2]

/-- C3: `get_fps` returns 0 when fewer than two inter-arrival samples have
been recorded, and after `n ≥ 2` arrivals spaced by a constant interval `D`
it returns exactly `1 / D`. -/
theorem get_fps_spec :
    (∀ (t0 : ℚ) (times : List ℚ), times.length < 2 →
        get_fps (arriveAll (initViewer t0) times) = 0) ∧
    (∀ (t0 D : ℚ) (n : ℕ), 2 ≤ n →
        get_fps (arriveAll (initViewer t0) (constTimes t0 D n)) = 1 / D) := by
  constructor
  · intro t0 times h
    cases times with
    | nil => simp [arriveAll, get_fps, initViewer]
    | cons t rest =>
        cases rest with
        | nil =>
            simp [arriveAll, get_fps, initViewer, recordArrival, dequePush,
              FPS_WINDOW]
        | cons a b =>
            simp only [List.length_cons] at h
            omega
  · intro t0 D n hn
    have h0 : initViewer t0 = (⟨List.replicate 0 D, t0, 0⟩ : Viewer) := rfl
    rw [h0, arriveAll_const D 0 n 0 t0 (by simp [FPS_WINDOW])]
    have hk2 : 2 ≤ min (0 + n) FPS_WINDOW := by
      simp only [FPS_WINDOW]
      omega
    unfold get_fps
    simp only [List.length_replicate, List.sum_replicate]
    rw [if_neg (by omega)]
    have hmq : ((min (0 + n) FPS_WINDOW : ℕ) : ℚ) ≠ 0 :=
      Nat.cast_ne_zero.mpr (by omega)
    rw [nsmul_eq_mul, mul_comm, mul_div_assoc, div_self hmq, mul_one]

/-- Witness for C3 at zero arrivals and at three arrivals spaced 1/30 s. -/
theorem get_fps_spec_witness :
    (([] : List ℚ).length < 2 ∧ get_fps (arriveAll (initViewer 0) []) = 0) ∧
    (2 ≤ 3 ∧
      get_fps (arriveAll (initViewer 0) (constTimes 0 (1 / 30) 3)) =
        1 / (1 / 30)) :=
  ⟨⟨by decide, get_fps_spec.1 0 [] (by decide)⟩,
   ⟨by decide, get_fps_spec.2 0 (1 / 30) 3 (by decide)⟩⟩

/-- C4: each `receive_frame` call performs exactly one underlying socket
receive (no internal retry), and when that receive times out the call
returns `none` — only the attempt counter changes, nothing is raised. -/
theorem receive_frame_timeout (socket : ℕ → RecvOutcome) (st : Viewer)
    (now : ℚ) :
    (receive_frame socket st now).1.recvCount = st.recvCount + 1 ∧
    (socket st.recvCount = RecvOutcome.again →
      receive_frame socket st now =
        ({ st with recvCount := st.recvCount + 1 }, none)) := by
  constructor
  · unfold receive_frame
    cases h : socket st.recvCount <;> simp [recordArrival]
  · intro h
    unfold receive_frame
    rw [h]

/-- Witness for C4 on a socket that always times out. -/
theorem receive_frame_timeout_witness :
    ((fun _ : ℕ => RecvOutcome.again) (initViewer 0).recvCount =
        RecvOutcome.again) ∧
    receive_frame (fun _ => RecvOutcome.again) (initViewer 0) 1 =
      ({ initViewer 0 with recvCount := 1 }, none) :=
  ⟨rfl, (receive_frame_timeout (fun _ => RecvOutcome.again) (initViewer 0) 1).2 rfl⟩

/-- C5: with no socket bound, `publish_frame` returns with no effect; with a
socket bound it appends exactly one message to the transport, carrying the
frame's timestamp and image, and a depth payload exactly when the frame
dictionary has a "depth" key. -/
theorem publish_frame_contract (st : ZEDStreamer) (frame : FrameDict) :
    (st.zmq_socket = false → publish_frame st frame = st) ∧
    (st.zmq_socket = true →
      ∃ m : EncodedMessage,
        publish_frame st frame = { st with sent := st.sent ++ [m] } ∧
        m.timestamp = dictTimestamp frame ∧
        m.image = packRows (dictImage frame) ∧
        (m.depth.isSome ↔ (frame.lookup "depth").isSome)) := by
  constructor
  · intro h
    unfold publish_frame
    rw [if_pos h]
  · intro h
    refine ⟨{ timestamp := dictTimestamp frame
              image := packRows (dictImage frame)
              depth := if (frame.lookup "depth").isSome
                       then some (packRows (dictDepth frame)) else none },
            ?_, rfl, rfl, ?_⟩
    · unfold publish_frame
      rw [if_neg (by simp [h])]
    · by_cases hd : (frame.lookup "depth").isSome <;> simp [hd]

/-- Witness for C5: an unbound and a bound concrete streamer. -/
theorem publish_frame_contract_witness :
    (samplePubOff.zmq_socket = false ∧
      publish_frame samplePubOff sampleFrameDict = samplePubOff) ∧
    (samplePubOn.zmq_socket = true ∧
      ∃ m : EncodedMessage,
        publish_frame samplePubOn sampleFrameDict =
          { samplePubOn with sent := samplePubOn.sent ++ [m] } ∧
        m.timestamp = dictTimestamp sampleFrameDict ∧
        m.image = packRows (dictImage sampleFrameDict) ∧
        (m.depth.isSome ↔ (sampleFrameDict.lookup "depth").isSome)) :=
  ⟨⟨rfl, (publish_frame_contract samplePubOff sampleFrameDict).1 rfl⟩,
   ⟨rfl, (publish_frame_contract samplePubOn sampleFrameDict).2 rfl⟩⟩

/-- Witness for C10 at concrete resolution strings. -/
theorem parse_resolution_total_witness :
    (pyLower "VGA" = "vga" ∧ _parse_resolution "VGA" = RESOLUTION.VGA) ∧
    (pyLower "2K" = "2k" ∧ _parse_resolution "2K" = RESOLUTION.HD2K) ∧
    (pyLower "whatever" ≠ "vga" ∧
      _parse_resolution "whatever" = RESOLUTION.HD720) :=
  ⟨⟨by decide, (parse_resolution_total "VGA").1 (by decide)⟩,
   ⟨by decide, (parse_resolution_total "2K").2.2.2.1 (by decide)⟩,
   ⟨by decide, (parse_resolution_total "whatever").2.2.2.2
      (by decide) (by decide) (by decide) (by decide)⟩⟩

/-- C6: a failed grab yields `None`, an iteration whose grab fails leaves
the loop state exactly as if the iteration had not happened (the loop
continues with the remaining iterations), while a failed device open makes
construction — and hence `main` — abort with the `RuntimeError` before any
streaming state exists. -/
theorem grab_fail_nonfatal (st : ZEDStreamer) (inps1 inps2 : List IterInput)
    (inp : IterInput) (fps p : ℕ) (d save avail : Bool)
    (openStatus : ERROR_CODE) (inps : List IterInput)
    (hfail : inp.grabStatus ≠ ERROR_CODE.SUCCESS)
    (hopen : openStatus ≠ ERROR_CODE.SUCCESS) :
    grab_frame st inp.grabStatus inp.raw inp.now inp.depthData = none ∧
    runLoop (inps1 ++ inp :: inps2) st = runLoop (inps1 ++ inps2) st ∧
    initStreamer fps d openStatus = Except.error "Failed to open ZED camera" ∧
    mainFlow p save avail openStatus fps d inps =
      Except.error "Failed to open ZED camera" := by
  have hg : ∀ s : ZEDStreamer,
      grab_frame s inp.grabStatus inp.raw inp.now inp.depthData = none := by
    intro s
    unfold grab_frame
    rw [if_pos hfail]
  have hstep : ∀ s : ZEDStreamer, runStep s inp = s := by
    intro s
    unfold runStep
    rw [hg s]
  have hinit : initStreamer fps d openStatus =
      Except.error "Failed to open ZED camera" := by
    unfold initStreamer
    rw [if_pos hopen]
  refine ⟨hg st, ?_, hinit, ?_⟩
  · unfold runLoop
    rw [List.foldl_append, List.foldl_append, List.foldl_cons, hstep]
  · unfold mainFlow
    rw [hinit]

/-- Witness for C6: one good iteration followed by one failed grab, and a
failed device open. -/
theorem grab_fail_nonfatal_witness :
    sampleFailInput.grabStatus ≠ ERROR_CODE.SUCCESS ∧
    ERROR_CODE.FAILURE "NO_DEVICE" ≠ ERROR_CODE.SUCCESS ∧
    runLoop [sampleOkInput, sampleFailInput] samplePubOn =
      runLoop [sampleOkInput] samplePubOn ∧
    initStreamer 30 false (ERROR_CODE.FAILURE "NO_DEVICE") =
      Except.error "Failed to open ZED camera" :=
  ⟨by decide, by decide,
   (grab_fail_nonfatal samplePubOn [sampleOkInput] [] sampleFailInput 30 1
      false false true (ERROR_CODE.FAILURE "NO_DEVICE") [] (by decide)
      (by decide)).2.1,
   (grab_fail_nonfatal samplePubOn [sampleOkInput] [] sampleFailInput 30 1
      false false true (ERROR_CODE.FAILURE "NO_DEVICE") [] (by decide)
      (by decide)).2.2.1⟩

/-- C9: every successful `grab_frame` result of a streamer built by
`__init__` is a dictionary holding the keys "image" and "timestamp", and it
holds the key "depth" exactly when depth was enabled at construction. -/
theorem grab_frame_keys (fps : ℕ) (d : Bool) (st : ZEDStreamer)
    (grabStatus : ERROR_CODE) (raw : List (List Bgra)) (now : ℚ)
    (depthData : DepthMap) (frame : FrameDict)
    (hinit : initStreamer fps d ERROR_CODE.SUCCESS = Except.ok st)
    (hgrab : grab_frame st grabStatus raw now depthData = some frame) :
    (frame.lookup "image").isSome ∧
    (frame.lookup "timestamp").isSome ∧
    ((frame.lookup "depth").isSome ↔ d = true) := by
  unfold initStreamer at hinit
  rw [if_neg (by simp)] at hinit
  injection hinit with hst
  unfold grab_frame at hgrab
  by_cases hgs : grabStatus ≠ ERROR_CODE.SUCCESS
  · rw [if_pos hgs] at hgrab
    exact absurd hgrab (by simp)
  · rw [if_neg hgs] at hgrab
    injection hgrab with hframe
    subst hframe
    rw [← hst]
    cases d <;> simp [List.lookup]

/-- Witness for C9 on a depth-enabled streamer and a concrete grab. -/
theorem grab_frame_keys_witness :
    initStreamer 30 true ERROR_CODE.SUCCESS = Except.ok sampleDepthStreamer ∧
    grab_frame sampleDepthStreamer ERROR_CODE.SUCCESS [[(1, 2, 3, 4)]] 1 [[2]] =
      some sampleGrabDict ∧
    ((sampleGrabDict.lookup "image").isSome ∧
      (sampleGrabDict.lookup "timestamp").isSome ∧
      ((sampleGrabDict.lookup "depth").isSome ↔ true = true)) :=
  ⟨rfl, rfl,
   grab_frame_keys 30 true sampleDepthStreamer ERROR_CODE.SUCCESS
     [[(1, 2, 3, 4)]] 1 [[2]] sampleGrabDict rfl rfl⟩

/-- How `close` changes each release counter: one release per handle that is
set, plus the unconditional camera close. -/
theorem close_counts (s : ZEDStreamer) :
    (close s).socketCloses = s.socketCloses + (if s.zmq_socket then 1 else 0) ∧
    (close s).contextTerms = s.contextTerms + (if s.zmq_context then 1 else 0) ∧
    (close s).writerReleases =
      s.writerReleases + (if s.video_writer then 1 else 0) ∧
    (close s).zedCloses = s.zedCloses + 1 := by
  unfold close
  by_cases h1 : s.video_writer <;> by_cases h2 : s.zmq_socket <;>
    by_cases h3 : s.zmq_context <;> simp [h1, h2, h3]

/-- One loop iteration never touches the handles or release counters. -/
theorem runStep_fields (s : ZEDStreamer) (inp : IterInput) :
    (runStep s inp).zmq_socket = s.zmq_socket ∧
    (runStep s inp).zmq_context = s.zmq_context ∧
    (runStep s inp).video_writer = s.video_writer ∧
    (runStep s inp).writerReleases = s.writerReleases ∧
    (runStep s inp).socketCloses = s.socketCloses ∧
    (runStep s inp).contextTerms = s.contextTerms ∧
    (runStep s inp).zedCloses = s.zedCloses := by
  cases h : grab_frame s inp.grabStatus inp.raw inp.now inp.depthData with
  | none => simp [runStep, h]
  | some frame =>
      by_cases hz : s.zmq_socket <;> simp [runStep, h, hz, publish_frame]

/-- The whole loop never touches the handles or release counters. -/
theorem runLoop_fields (inps : List IterInput) :
    ∀ s : ZEDStreamer,
    (runLoop inps s).zmq_socket = s.zmq_socket ∧
    (runLoop inps s).zmq_context = s.zmq_context ∧
    (runLoop inps s).video_writer = s.video_writer ∧
    (runLoop inps s).writerReleases = s.writerReleases ∧
    (runLoop inps s).socketCloses = s.socketCloses ∧
    (runLoop inps s).contextTerms = s.contextTerms ∧
    (runLoop inps s).zedCloses = s.zedCloses := by
  induction inps with
  | nil =>
      intro s
      exact ⟨rfl, rfl, rfl, rfl, rfl, rfl, rfl⟩
  | cons i rest ih =>
      intro s
      obtain ⟨a1, a2, a3, a4, a5, a6, a7⟩ := runStep_fields s i
      obtain ⟨b1, b2, b3, b4, b5, b6, b7⟩ := ih (runStep s i)
      exact ⟨b1.trans a1, b2.trans a2, b3.trans a3, b4.trans a4, b5.trans a5,
        b6.trans a6, b7.trans a7⟩

/-- Running the loop and then closing once, from a state with both transport
handles bound and zero previous releases, releases each exactly once. -/
theorem close_runLoop_counts (inps : List IterInput) (s0 : ZEDStreamer)
    (hsc : s0.socketCloses = 0) (hct : s0.contextTerms = 0)
    (hzc : s0.zedCloses = 0) (hzs : s0.zmq_socket = true)
    (hzx : s0.zmq_context = true) :
    (close (runLoop inps s0)).socketCloses = 1 ∧
    (close (runLoop inps s0)).contextTerms = 1 ∧
    (close (runLoop inps s0)).zedCloses = 1 := by
  obtain ⟨rS, rC, rW, rWR, rSC, rCT, rZ⟩ := runLoop_fields inps s0
  obtain ⟨cS, cC, cW, cZ⟩ := close_counts (runLoop inps s0)
  refine ⟨?_, ?_, ?_⟩
  · rw [cS, rSC, rS, hsc, hzs]
    rfl
  · rw [cC, rCT, rC, hct, hzx]
    rfl
  · rw [cZ, rZ, hzc]

/-- C8 counterexample: `close` is not idempotent — on a streamer with its
transport bound, a second `close()` does not leave the state unchanged (the
handle attributes are never cleared, so every release call runs again). -/
theorem close_not_idempotent :
    close (close samplePubOn) ≠ close samplePubOn := by decide

/-- On a successful open, `main` reduces to: set up the transport and the
optional writer, run the loop, close once. -/
theorem mainFlow_ok_shape (port fps : ℕ) (d save : Bool)
    (inps : List IterInput) (hport : 0 < port) :
    mainFlow port save true ERROR_CODE.SUCCESS fps d inps =
      Except.ok (close (runLoop inps
        (if save then start_video_writer (start_zmq_server (initRecord fps d) true)
         else start_zmq_server (initRecord fps d) true))) := by
  unfold mainFlow initStreamer
  rw [if_neg (by simp)]
  dsimp only
  rw [if_pos hport]

/-- C8 (amended): a full run of `main` with a bound port invokes `close`
exactly once, in the `finally` block, so the socket, the context and the
device handle are each released exactly once; `close` itself, however, is
not idempotent — each further call releases the device again. -/
theorem close_released_once (port fps : ℕ) (d save : Bool)
    (inps : List IterInput) (st : ZEDStreamer)
    (hport : 0 < port)
    (hmain : mainFlow port save true ERROR_CODE.SUCCESS fps d inps =
      Except.ok st) :
    st.socketCloses = 1 ∧ st.contextTerms = 1 ∧ st.zedCloses = 1 ∧
    (∀ s : ZEDStreamer, (close (close s)).zedCloses = s.zedCloses + 2) := by
  have hdouble : ∀ s : ZEDStreamer,
      (close (close s)).zedCloses = s.zedCloses + 2 := by
    intro s
    rw [(close_counts (close s)).2.2.2, (close_counts s).2.2.2]
  rw [mainFlow_ok_shape port fps d save inps hport] at hmain
  injection hmain with h
  rw [← h]
  by_cases hsave : save
  · rw [if_pos hsave]
    have H := close_runLoop_counts inps
      (start_video_writer (start_zmq_server (initRecord fps d) true))
      rfl rfl rfl rfl rfl
    exact ⟨H.1, H.2.1, H.2.2, hdouble⟩
  · rw [if_neg hsave]
    have H := close_runLoop_counts inps
      (start_zmq_server (initRecord fps d) true) rfl rfl rfl rfl rfl
    exact ⟨H.1, H.2.1, H.2.2, hdouble⟩

/-- Witness for C8 (amended) on a minimal successful run of `main`. -/
theorem close_released_once_witness :
    0 < 1 ∧
    mainFlow 1 false true ERROR_CODE.SUCCESS 30 false [] =
      Except.ok sampleMainResult ∧
    sampleMainResult.socketCloses = 1 ∧ sampleMainResult.contextTerms = 1 ∧
    sampleMainResult.zedCloses = 1 :=
  ⟨by decide, rfl,
   (close_released_once 1 30 false false [] sampleMainResult (by decide)
      rfl).1,
   (close_released_once 1 30 false false [] sampleMainResult (by decide)
      rfl).2.1,
   (close_released_once 1 30 false false [] sampleMainResult (by decide)
      rfl).2.2.1⟩

/-- The published messages of an event list starting with a publish. -/
theorem pubsOf_cons_pub (m : EncodedMessage) (rest : List PubSubEvent) :
    pubsOf (PubSubEvent.pub m :: rest) = m :: pubsOf rest := rfl

/-- The published messages of an event list starting with a receive. -/
theorem pubsOf_cons_recv (rest : List PubSubEvent) :
    pubsOf (PubSubEvent.recv :: rest) = pubsOf rest := rfl

/-- A publish overwrites whatever is pending. -/
theorem conflateStep_pub (buf : Option EncodedMessage)
    (obs : List EncodedMessage) (m : EncodedMessage) :
    conflateStep (buf, obs) (PubSubEvent.pub m) = (some m, obs) := by
  cases buf <;> rfl

/-- A receive takes the pending message. -/
theorem conflateStep_recv_some (obs : List EncodedMessage)
    (m : EncodedMessage) :
    conflateStep (some m, obs) PubSubEvent.recv = (none, obs ++ [m]) := rfl

/-- A receive on an empty channel observes nothing. -/
theorem conflateStep_recv_none (obs : List EncodedMessage) :
    conflateStep (none, obs) PubSubEvent.recv = (none, obs) := rfl

/-- Channel invariant: along any event sequence, the observed messages
followed by the pending one form a sublist of the published messages, and
the pending message, when there is one, is the most recently published. -/
theorem conflate_inv (evs : List PubSubEvent) :
    ∀ (buf : Option EncodedMessage) (obs pubs : List EncodedMessage),
      (obs ++ buf.toList).Sublist pubs →
      (∀ b, buf = some b → pubs.getLast? = some b) →
      ((evs.foldl conflateStep (buf, obs)).2 ++
          (evs.foldl conflateStep (buf, obs)).1.toList).Sublist
        (pubs ++ pubsOf evs) ∧
      (∀ b, (evs.foldl conflateStep (buf, obs)).1 = some b →
          (pubs ++ pubsOf evs).getLast? = some b) := by
  induction evs with
  | nil =>
      intro buf obs pubs h1 h2
      simpa [pubsOf] using ⟨h1, h2⟩
  | cons e rest ih =>
      intro buf obs pubs h1 h2
      cases e with
      | pub m =>
          have hobs : obs.Sublist pubs :=
            (List.sublist_append_left obs buf.toList).trans h1
          have h1m : (obs ++ (some m : Option EncodedMessage).toList).Sublist
              (pubs ++ [m]) := by
            simpa using hobs.append (List.Sublist.refl [m])
          have h2m : ∀ b, (some m : Option EncodedMessage) = some b →
              (pubs ++ [m]).getLast? = some b := by
            intro b hb
            cases hb
            simp [List.getLast?_concat]
          have H := ih (some m) obs (pubs ++ [m]) h1m h2m
          have hassoc : pubs ++ pubsOf (PubSubEvent.pub m :: rest) =
              (pubs ++ [m]) ++ pubsOf rest := by
            rw [pubsOf_cons_pub]
            simp
          rw [hassoc, List.foldl_cons, conflateStep_pub]
          exact H
      | recv =>
          cases hbuf : buf with
          | none =>
              have h1n : (obs ++ (none : Option EncodedMessage).toList).Sublist
                  pubs := by
                simpa using (List.sublist_append_left obs _).trans h1
              have H := ih none obs pubs h1n (by intro b hb; cases hb)
              rw [pubsOf_cons_recv, List.foldl_cons, conflateStep_recv_none]
              exact H
          | some b0 =>
              have h1s : ((obs ++ [b0]) ++
                  (none : Option EncodedMessage).toList).Sublist pubs := by
                simpa [hbuf] using h1
              have H := ih none (obs ++ [b0]) pubs h1s (by intro b hb; cases hb)
              rw [pubsOf_cons_recv, List.foldl_cons, conflateStep_recv_some]
              exact H

/-- C1: over any interleaving of publishes and receives on the
conflate-to-latest channel, a receive that finds a message delivers exactly
the most recently published message at the time of the call (older pending
ones having been overwritten), and when the producer publishes with
nondecreasing capture timestamps the consumer never observes a message whose
timestamp is older than a previously observed one. -/
theorem conflate_latest (evs : List PubSubEvent) :
    (∀ b, (conflateRun evs).1 = some b →
        (pubsOf evs).getLast? = some b ∧
        (conflateRun (evs ++ [PubSubEvent.recv])).2 =
          (conflateRun evs).2 ++ [b]) ∧
    ((pubsOf evs).Pairwise (fun a c => a.timestamp ≤ c.timestamp) →
        (conflateRun evs).2.Pairwise (fun a c => a.timestamp ≤ c.timestamp)) := by
  have H := conflate_inv evs none [] [] (by simp) (by intro b hb; cases hb)
  simp only [List.nil_append] at H
  constructor
  · intro b hb
    refine ⟨H.2 b hb, ?_⟩
    have hp : conflateRun evs = (some b, (conflateRun evs).2) := by
      rcases hq : conflateRun evs with ⟨buf, obs⟩
      rw [hq] at hb
      simp only at hb
      rw [hb]
    unfold conflateRun
    rw [List.foldl_append]
    change (List.foldl conflateStep (conflateRun evs) [PubSubEvent.recv]).2 =
      (conflateRun evs).2 ++ [b]
    rw [hp]
    rfl
  · intro hmono
    have hsub : ((conflateRun evs).2).Sublist (pubsOf evs) :=
      (List.sublist_append_left _ _).trans H.1
    exact List.Pairwise.sublist hsub hmono

/-- Witness for C1: the producer publishes twice before the consumer reads;
the read delivers the second message, never the first. -/
theorem conflate_latest_witness :
    (conflateRun [PubSubEvent.pub msgA, PubSubEvent.pub msgB]).1 = some msgB ∧
    ((pubsOf [PubSubEvent.pub msgA, PubSubEvent.pub msgB]).getLast? =
        some msgB ∧
      (conflateRun ([PubSubEvent.pub msgA, PubSubEvent.pub msgB] ++
          [PubSubEvent.recv])).2 =
        (conflateRun [PubSubEvent.pub msgA, PubSubEvent.pub msgB]).2 ++
          [msgB]) ∧
    ((pubsOf [PubSubEvent.pub msgA, PubSubEvent.pub msgB]).Pairwise
        (fun a c => a.timestamp ≤ c.timestamp) ∧
      (conflateRun [PubSubEvent.pub msgA, PubSubEvent.pub msgB]).2.Pairwise
        (fun a c => a.timestamp ≤ c.timestamp)) :=
  ⟨rfl,
   (conflate_latest [PubSubEvent.pub msgA, PubSubEvent.pub msgB]).1 msgB rfl,
   by decide,
   (conflate_latest [PubSubEvent.pub msgA, PubSubEvent.pub msgB]).2
     (by decide)⟩

end ZedG1
